import Mathlib

/-!
Verification of the leetcode-tracker bulk synchronization engine.

This file gives a shallow embedding of the sync engine of the repository
(`src/scripts/services/sync-service.js`, `leetcode-service.js`,
`github-service.js`) and proves or refutes the specification claims about it.

The scheduler `processProblemsQueue` is embedded as an executable event
model: the JavaScript runtime's single-threaded event loop is modelled by a
configuration type `SchedConfig` together with event handlers
(`completeWorker` for a worker promise settling, `fireTimer` for the pause
timer firing).  A run of the scheduler is the fold of an arbitrary event
schedule over the initial configuration; quantifying over all schedules
covers every possible interleaving of worker completions and timer expiry.
The per-problem work (`processProblem`: submission fetch plus the GitHub
queue operations) is abstracted into an `Outcome` supplied by an
environment function `Nat → Nat → Outcome` (problem id and retry round):
success with a count of newly created files, a permanent error, or an error
carrying `needsPause = true`.  The stats mutations of `processProblem`
(lines 419-440 of sync-service.js) are consecutive synchronous statements
with no `await` between them, so they are modelled as a single atomic
update at worker completion.
-/

namespace LeetcodeTracker

/-- The `stats` object of `SyncService` (sync-service.js lines 18-25). -/
structure SyncStats where
  total : Nat
  synced : Nat
  failed : Nat
  current : Nat
  processed : Nat
  skipped : Nat
  deriving Repr, DecidableEq

/-- The reset value of `stats` (sync-service.js lines 64-71). -/
def SyncStats.reset : SyncStats :=
  { total := 0, synced := 0, failed := 0, current := 0, processed := 0, skipped := 0 }

/-- Terminal result of one `processProblem` call, as observed by the
scheduler: success (with the number of new files created, deciding
`synced` versus `skipped`), an error without `needsPause`, or an error
with `needsPause = true` (sync-service.js lines 370-441). -/
inductive Outcome where
  | success (newFiles : Nat)
  | permError
  | pauseError
  deriving Repr, DecidableEq

/-- Which continuation the single pending `setTimeout` timer holds:
`resume` for the timer armed by `pauseAndScheduleResume` (line 256), and
`retryKick` for the timer armed by the retry branch (lines 287-298). -/
inductive TimerKind where
  | resume
  | retryKick
  deriving Repr, DecidableEq

/-- An entry of the `activePromises` map: the `currentIndex` key, the
problem being processed, and the retry round in which the worker was
started (used to index the outcome environment). -/
structure Worker where
  idx : Nat
  problem : Nat
  attempt : Nat
  deriving Repr, DecidableEq

/-- The state of one `processProblemsQueue` invocation: the closure
variables of sync-service.js lines 218-353 (`problemsToProcess`,
`nextIndex`, `isPaused`, `pauseTimer`) together with the service fields
they mutate (`activePromises`, `failedProblems`, `retryCount`, `stats`)
and whether the scheduler promise has resolved. -/
structure SchedConfig where
  backlog : List Nat
  nextIndex : Nat
  isPaused : Bool
  timer : Option TimerKind
  active : List Worker
  failedProblems : List Nat
  retryCount : Nat
  stats : SyncStats
  resolved : Bool
  deriving Repr, DecidableEq

/-- `this.maxRetries` (sync-service.js line 29). -/
def maxRetries : Nat := 3

/-- `maxParallel` (sync-service.js line 82). -/
def maxParallel : Nat := 5

/-- `this.pauseDuration` in milliseconds (sync-service.js line 27). -/
def pauseDuration : Nat := 30000

/-- `startNextProblem` (sync-service.js lines 264-343).  Returns early when
paused; when the backlog is exhausted and no workers are active it either
swaps in the failed problems for a retry round (arming the retry timer),
flushes the remaining failed problems into the stats and resolves, or
resolves directly; otherwise it starts a worker on the next backlog item
(`stats.current` is the first statement of `processProblem`, which runs
synchronously up to its first `await`). -/
def startNextProblem (c : SchedConfig) : SchedConfig :=
  if c.isPaused then c
  else if c.backlog.length ≤ c.nextIndex then
    if c.active.length = 0 then
      if 0 < c.failedProblems.length ∧ c.retryCount < maxRetries then
        { c with
          retryCount := c.retryCount + 1
          backlog := c.failedProblems
          failedProblems := []
          nextIndex := 0
          isPaused := true
          timer := some TimerKind.retryKick }
      else if 0 < c.failedProblems.length then
        { c with
          stats := { c.stats with
            failed := c.stats.failed + c.failedProblems.length
            processed := c.stats.processed + c.failedProblems.length }
          resolved := true }
      else
        { c with resolved := true }
    else c
  else
    { c with
      nextIndex := c.nextIndex + 1
      active := c.active ++ [⟨c.nextIndex, c.backlog.getD c.nextIndex 0, c.retryCount⟩]
      stats := { c.stats with current := c.nextIndex + 1 } }

/-- Deletion from the `activePromises` map (`this.activePromises.delete`). -/
def removeWorker (i : Nat) : List Worker → List Worker
  | [] => []
  | w :: ws => if w.idx = i then ws else w :: removeWorker i ws

/-- The event of the promise of active worker `i` settling, with the
outcome drawn from the environment `outcomeOf`.  On success or permanent
error the stats are updated as in `processProblem` (lines 419-440), the
worker is removed, and, when not paused, the completion handler chains into
`startNextProblem` (lines 328-342).  On a `needsPause` error the rejection
handler pushes the problem onto `failedProblems` and calls
`pauseAndScheduleResume` (lines 316-324); since that leaves the scheduler
paused, the second rejection handler never chains.  An event for an `i`
that is not an active worker is a no-op. -/
def completeWorker (outcomeOf : Nat → Nat → Outcome) (i : Nat) (c : SchedConfig) :
    SchedConfig :=
  match c.active.find? (fun w => w.idx == i) with
  | none => c
  | some w =>
    let act := removeWorker i c.active
    match outcomeOf w.problem w.attempt with
    | Outcome.success n =>
      let c2 := { c with
        active := act
        stats := if 0 < n then
            { c.stats with synced := c.stats.synced + 1, processed := c.stats.processed + 1 }
          else
            { c.stats with skipped := c.stats.skipped + 1, processed := c.stats.processed + 1 } }
      if c2.isPaused then c2 else startNextProblem c2
    | Outcome.permError =>
      let c2 := { c with
        active := act
        stats := { c.stats with
          failed := c.stats.failed + 1
          processed := c.stats.processed + 1 } }
      if c2.isPaused then c2 else startNextProblem c2
    | Outcome.pauseError =>
      if c.isPaused then
        { c with active := act, failedProblems := c.failedProblems ++ [w.problem] }
      else
        { c with
          active := act
          failedProblems := c.failedProblems ++ [w.problem]
          isPaused := true
          timer := some TimerKind.resume }

/-- `resumeSync` (sync-service.js lines 229-242): clear the pause and fill
`min (maxParallel - active) (backlog length - nextIndex)` slots. -/
def resumeSync (c : SchedConfig) : SchedConfig :=
  let c1 := { c with isPaused := false, timer := none }
  startNextProblem^[min (maxParallel - c1.active.length) (c1.backlog.length - c1.nextIndex)] c1

/-- The retry timer continuation (sync-service.js lines 287-298): clear the
pause and start `min maxParallel (backlog length)` workers. -/
def retryKickTimer (c : SchedConfig) : SchedConfig :=
  let c1 := { c with isPaused := false, timer := none }
  startNextProblem^[min maxParallel c1.backlog.length] c1

/-- The event of the pending `setTimeout` timer firing.  A no-op when no
timer is armed. -/
def fireTimer (c : SchedConfig) : SchedConfig :=
  match c.timer with
  | none => c
  | some TimerKind.resume => resumeSync c
  | some TimerKind.retryKick => retryKickTimer c

/-- One event of the scheduler's event loop. -/
inductive SchedEvent where
  | complete (i : Nat)
  | timer
  deriving Repr, DecidableEq

/-- Dispatch one event. -/
def applyEvent (outcomeOf : Nat → Nat → Outcome) (c : SchedConfig) :
    SchedEvent → SchedConfig
  | SchedEvent.complete i => completeWorker outcomeOf i c
  | SchedEvent.timer => fireTimer c

/-- The configuration at entry to `processProblemsQueue`: counters freshly
reset by `startSync` (lines 63-76) and `stats.total` set to the backlog
length (line 80). -/
def initConfig (problems : List Nat) : SchedConfig :=
  { backlog := problems
    nextIndex := 0
    isPaused := false
    timer := none
    active := []
    failedProblems := []
    retryCount := 0
    stats := { SyncStats.reset with total := problems.length }
    resolved := false }

/-- The initial batch (sync-service.js lines 346-352): start
`min maxParallel (backlog length)` workers. -/
def startQueue (problems : List Nat) : SchedConfig :=
  startNextProblem^[min maxParallel problems.length] (initConfig problems)

/-- A run of the scheduler: the initial batch followed by an arbitrary
event schedule. -/
def runSched (outcomeOf : Nat → Nat → Outcome) (problems : List Nat)
    (sched : List SchedEvent) : SchedConfig :=
  sched.foldl (applyEvent outcomeOf) (startQueue problems)

/-- Stats balance: each terminal disposition increments `processed`
together with exactly one of `synced`, `skipped`, `failed`. -/
def StatsBalanced (s : SyncStats) : Prop :=
  s.synced + s.skipped + s.failed = s.processed

/-- Reachability invariant of the scheduler: the backlog cursor is in
range, an unpaused scheduler has no armed timer, the retry-kick timer is
only armed with the cursor reset, every problem is accounted for exactly
once (processed, pending, in flight, or deferred), a resolved scheduler
has processed every problem and is quiescent, and the stats stay
balanced. -/
def GoodCfg (c : SchedConfig) : Prop :=
  c.nextIndex ≤ c.backlog.length ∧
  (c.isPaused = false → c.timer = none) ∧
  (c.timer = some TimerKind.retryKick → c.nextIndex = 0) ∧
  (c.resolved = false →
    c.stats.processed + (c.backlog.length - c.nextIndex) + c.active.length +
      c.failedProblems.length = c.stats.total) ∧
  (c.resolved = true →
    c.stats.processed = c.stats.total ∧ c.active = [] ∧ c.timer = none) ∧
  StatsBalanced c.stats

/-- The outcome environment of a problem whose processing always fails
with an error carrying `needsPause = true`. -/
def pauseOutcome : Nat → Nat → Outcome := fun _ _ => Outcome.pauseError

/-- State of the always-pause single-problem run with its worker in
flight. -/
def pauseCfgRunning : SchedConfig :=
  ⟨[0], 1, false, none, [⟨0, 0, 0⟩], [], 0, ⟨1, 0, 0, 1, 0, 0⟩, false⟩

/-- State after the worker failed with `needsPause`: paused, resume timer
armed, the problem on the deferred list. -/
def pauseCfgPaused : SchedConfig :=
  ⟨[0], 1, true, some TimerKind.resume, [], [0], 0, ⟨1, 0, 0, 1, 0, 0⟩, false⟩

/-- State after the resume timer fired: `resumeSync` computes
`min (maxParallel - 0) (1 - 1) = 0` slots to fill, so nothing is started
and no code path can ever reach the retry or completion branch again. -/
def pauseCfgStuck : SchedConfig :=
  ⟨[0], 1, false, none, [], [0], 0, ⟨1, 0, 0, 1, 0, 0⟩, false⟩

/-- The set of configurations reachable in the always-pause
single-problem run. -/
def PauseReach (c : SchedConfig) : Prop :=
  c = pauseCfgRunning ∨ c = pauseCfgPaused ∨ c = pauseCfgStuck

/-- Time-refined view of the pause mechanism (sync-service.js lines
221-258): the `isPaused` flag together with the deadline of the single
pending `setTimeout` handle held in `pauseTimer` (`setTimeout(_, d)` at
time `now` arms a timer whose deadline is `now + d`; `clearTimeout`
removes it; `null` is `none`). -/
structure PauseState where
  isPaused : Bool
  timerDeadline : Option Nat
  deriving Repr, DecidableEq

/-- `pauseAndScheduleResume` (sync-service.js lines 248-258): only when
not already paused does it set the pause flag, clear any pending timer and
arm a fresh one a full `pauseDuration` from `now`; when already paused the
entire body is skipped. -/
def pauseAndScheduleResume (now : Nat) (st : PauseState) : PauseState :=
  if st.isPaused = false then
    { isPaused := true, timerDeadline := some (now + pauseDuration) }
  else st

/-- Executable model of JavaScript `String.prototype.trim`: strip
whitespace from both ends. -/
def trimString (s : String) : String :=
  String.mk (((s.toList.dropWhile fun c => c.isWhitespace).reverse.dropWhile
    fun c => c.isWhitespace).reverse)

/-- An entry of `stat_status_pairs` from the solved-problem list fetch,
projected to the fields the sync flow consumes: an identifier standing for
the problem object handed to the scheduler, and its `status` string
(`"ac"` for accepted). -/
structure LCProblem where
  id : Nat
  status : String
  deriving Repr, DecidableEq

/-- The outcome of the `fetch` of the full problem list
(leetcode-service.js lines 64-73): whether `response.ok`, the `user_name`
field of the JSON body (absent or present), and `stat_status_pairs`. -/
structure FetchAllResult where
  ok : Bool
  userName : Option String
  statStatusPairs : List LCProblem
  deriving Repr, DecidableEq

/-- `getSolvedProblems` (leetcode-service.js lines 58-88) as a function of
the fetch outcome and the current `cachedProblems` field.  Returns the
accepted problems, the new value of `cachedProblems`, and a ghost flag
recording whether a full-list fetch populated the cache on this call. -/
def getSolvedProblems (fetchResult : FetchAllResult)
    (cachedProblems : Option (List LCProblem)) :
    Except String (List LCProblem × Option (List LCProblem) × Bool) :=
  match cachedProblems with
  | some ps => Except.ok (ps.filter (fun p => p.status == "ac"), some ps, false)
  | none =>
    if fetchResult.ok = false then
      Except.error "API error"
    else
      match fetchResult.userName with
      | none =>
        Except.error "You have not logged in to LeetCode. Please log in for syncing problems."
      | some u =>
        if trimString u = "" then
          Except.error "You have not logged in to LeetCode. Please log in for syncing problems."
        else
          Except.ok (fetchResult.statStatusPairs.filter (fun p => p.status == "ac"),
            some fetchResult.statStatusPairs, true)

/-- The mutable fields of the `SyncService` instance that `startSync`
reads or resets (sync-service.js lines 14-35 and 61-76), together with the
embedded `LeetCodeService` cache (`this.leetcodeService.cachedProblems`),
which the reset block does not touch.  The service instance is created
once by the background controller (background.js line 204) and reused for
every sync. -/
structure ServiceState where
  isSyncing : Bool
  stats : SyncStats
  failedProblems : List Nat
  retryCount : Nat
  githubQueue : List Nat
  githubProcessing : Bool
  cachedProblems : Option (List LCProblem)
  deriving Repr, DecidableEq

/-- The persistent storage keys `startSync` reads and writes (the ISO
date string is not modelled, wall-clock time being outside the
embedding). -/
structure StorageState where
  syncInProgress : Bool
  lastSyncStatus : String
  lastSyncMessage : String
  deriving Repr, DecidableEq

/-- The object `startSync` resolves with. -/
structure SyncResult where
  success : Bool
  message : String
  deriving Repr, DecidableEq

/-- The aggregate completion message (sync-service.js line 88). -/
def successMessage (s : SyncStats) : String :=
  "Synchronization completed. Total: " ++ toString s.total ++
  ", New files: " ++ toString s.synced ++
  ", Already existed: " ++ toString s.skipped ++
  ", Failed: " ++ toString s.failed ++
  ", Processed: " ++ toString s.processed

/-- `startSync` (sync-service.js lines 43-135) as a function of the
service state, the storage state, the solved-problem fetch outcome, the
per-problem outcome environment and the scheduler event schedule.
Returns the resolved value, the final service state, the final storage
state, and the ghost fetch flag of `getSolvedProblems`.  The awaited
scheduler promise is modelled by running the given event schedule; the
GitHub queue is drained by `waitForGithubQueueCompletion` before the
final status write, leaving it empty.  The final storage write is modelled
as succeeding (its `catch` only logs). -/
def startSync (svc : ServiceState) (storage : StorageState)
    (fetchResult : FetchAllResult) (outcomeOf : Nat → Nat → Outcome)
    (sched : List SchedEvent) :
    SyncResult × ServiceState × StorageState × Bool :=
  if storage.syncInProgress then
    (⟨false, "Synchronization already in progress"⟩, svc, storage, false)
  else
    let storage1 : StorageState :=
      { syncInProgress := true
        lastSyncStatus := "in_progress"
        lastSyncMessage := "Synchronization started..." }
    let svc1 : ServiceState :=
      { svc with
        isSyncing := true
        stats := SyncStats.reset
        failedProblems := []
        retryCount := 0
        githubQueue := []
        githubProcessing := false }
    match getSolvedProblems fetchResult svc.cachedProblems with
    | Except.error msg =>
      (⟨false, "Error fetching solved problems: " ++ msg⟩,
        { svc1 with isSyncing := false },
        { storage1 with
          syncInProgress := false
          lastSyncStatus := "failed"
          lastSyncMessage := msg },
        false)
    | Except.ok (solved, cache2, didFetch) =>
      let final := runSched outcomeOf (solved.map (fun p => p.id)) sched
      let allProcessed : Bool := final.stats.processed == final.stats.total
      (⟨allProcessed, successMessage final.stats⟩,
        { svc1 with
          isSyncing := false
          stats := final.stats
          failedProblems := final.failedProblems
          retryCount := final.retryCount
          cachedProblems := cache2 },
        { storage1 with
          syncInProgress := false
          lastSyncStatus := if allProcessed then "success" else "partial"
          lastSyncMessage := successMessage final.stats },
        didFetch)

/-- The outcome of the `fetchWithAuth` PUT of `createFile`
(github-service.js): whether `response.ok`, the HTTP status, and the
`message` field of the parsed error body (`none` when the body could not
be parsed, as `errorData` is then `{}` and `errorData.message?.` is
undefined). -/
structure GithubResponse where
  ok : Bool
  status : Nat
  message : Option String
  deriving Repr, DecidableEq

/-- Contiguous-substring test on character lists. -/
def charsContainsSeq : List Char → List Char → Bool
  | s, pat =>
    if pat.isPrefixOf s then true
    else
      match s with
      | [] => false
      | _ :: t => charsContainsSeq t pat

/-- Substring test backing `String.prototype.includes`. -/
def strIncludes (s pat : String) : Bool :=
  charsContainsSeq s.toList pat.toList

/-- `createFile` (github-service.js lines 633-707) as seen by its caller:
on a non-ok response, a 422 status whose error message includes
"already exists" returns the response normally; any other non-ok response
throws.  On an ok response the function additionally writes an optional
README and may send a stats message, but both are swallowed on failure and
neither alters the returned response, so the embedding returns the
response or the thrown error message. -/
def createFile (resp : GithubResponse) : Except String GithubResponse :=
  if resp.ok then Except.ok resp
  else if resp.status == 422 &&
      (match resp.message with
       | some m => strIncludes m "already exists"
       | none => false) then
    Except.ok resp
  else
    Except.error ("Failed to create file: " ++ toString resp.status)

/-- A submission row of the `questionSubmissionList` response
(leetcode-service.js lines 134-154), projected to the fields the code
reads: `id`, `title`, `lang`, `timestamp` (already parsed to a number, as
by `parseInt`; the spec notes timestamps are integers) and `status`
(10 means accepted). -/
structure RawSubmission where
  id : Nat
  title : String
  lang : String
  timestamp : Nat
  status : Nat
  deriving Repr, DecidableEq

/-- The value stored in `submissionsByLang[lang]`
(leetcode-service.js lines 225-230). -/
structure LangEntry where
  id : Nat
  title : String
  timestamp : Nat
  lang : String
  deriving Repr, DecidableEq

/-- The projection stored by the grouping loop. -/
def entryOf (s : RawSubmission) : LangEntry :=
  ⟨s.id, s.title, s.timestamp, s.lang⟩

/-- Key lookup in a JavaScript-object-like association list. -/
def lookupLang : List (String × LangEntry) → String → Option LangEntry
  | [], _ => none
  | (k, v) :: rest, lang => if k = lang then some v else lookupLang rest lang

/-- Key assignment `submissionsByLang[lang] = e`: replaces in place when
the key exists (JavaScript objects keep the original insertion position),
appends otherwise. -/
def setLang : List (String × LangEntry) → String → LangEntry →
    List (String × LangEntry)
  | [], lang, e => [(lang, e)]
  | (k, v) :: rest, lang, e =>
    if k = lang then (k, e) :: rest else (k, v) :: setLang rest lang e

/-- One iteration of the grouping loop (leetcode-service.js lines
217-232): store the submission when the map has no entry for its language
yet or its timestamp is strictly greater than the stored one. -/
def groupStep (acc : List (String × LangEntry)) (s : RawSubmission) :
    List (String × LangEntry) :=
  match lookupLang acc s.lang with
  | none => setLang acc s.lang (entryOf s)
  | some cur =>
    if cur.timestamp < s.timestamp then setLang acc s.lang (entryOf s) else acc

/-- The grouping loop over the accepted submissions. -/
def groupByLanguage (subs : List RawSubmission) : List (String × LangEntry) :=
  subs.foldl groupStep []

/-- Modelled from the spec's words, for comparison with the code: among a
list of submissions (of one language), the one with the greatest
timestamp, ties broken by keeping the first-seen one (a strictly greater
timestamp is required for a later submission to win). -/
def specFirstMaxByTimestamp : List RawSubmission → Option LangEntry
  | [] => none
  | s :: rest =>
    match specFirstMaxByTimestamp rest with
    | none => some (entryOf s)
    | some e => if s.timestamp < e.timestamp then some e else some (entryOf s)

/-- Merge of a current best entry with the best of a later batch: the
later one wins only with a strictly greater timestamp. -/
def mergeBest : Option LangEntry → Option LangEntry → Option LangEntry
  | none, r => r
  | some c, none => some c
  | some c, some r => if c.timestamp < r.timestamp then some r else some c

/-- `response.ok` of the Fetch API: status in 200..299. -/
def httpOk (status : Nat) : Bool :=
  decide (200 ≤ status ∧ status < 300)

/-- Payload of the submission-list response body. -/
structure SubmissionListData where
  questionSubmissionList : Option (List RawSubmission)
  deriving Repr, DecidableEq

/-- Parsed JSON body of the submission-list response. -/
structure SubmissionListBody where
  errors : Option (List String)
  data : Option SubmissionListData
  deriving Repr, DecidableEq

/-- The `question` object of the submission-detail payload. -/
structure SubQuestion where
  questionId : String
  titleSlug : String
  deriving Repr, DecidableEq

/-- The `submissionDetails` payload fields the code reads.  `code` is
`none` for absent and `some ""` for present-but-empty; both are falsy for
the `!details.code` check. -/
structure SubDetails where
  code : Option String
  timestamp : Nat
  question : SubQuestion
  deriving Repr, DecidableEq

/-- Payload of the submission-detail response body. -/
structure SubmissionDetailData where
  submissionDetails : Option SubDetails
  deriving Repr, DecidableEq

/-- Parsed JSON body of the submission-detail response. -/
structure SubmissionDetailBody where
  errors : Option (List String)
  data : Option SubmissionDetailData
  deriving Repr, DecidableEq

/-- The remote responses observed by one `getSubmissionsByLanguage` call:
the submission-list fetch and, per submission id, the detail fetch. -/
structure LCEnv where
  listStatus : Nat
  listBody : SubmissionListBody
  detailStatus : Nat → Nat
  detailBody : Nat → SubmissionDetailBody

/-- An error thrown by `getSubmissionsByLanguage`: its message and its
`needsPause` flag (`false` models the property being absent). -/
structure LCError where
  msg : String
  needsPause : Bool
  deriving Repr, DecidableEq

/-- `kebabToPascalCase` (leetcode-service.js lines 393-401). -/
def kebabToPascalCase (str : String) : String :=
  String.join ((str.splitOn "-").map (fun word => word.capitalize))

/-- JavaScript falsiness of `details.code` (undefined, null or ""). -/
def codeFalsy : Option String → Bool
  | none => true
  | some s => s == ""

/-- An entry of the `result` object (leetcode-service.js lines 352-360);
`statusDisplay` embeds the `status_display` field. -/
structure SubmissionResult where
  questionId : String
  title : String
  titleSlug : String
  statusDisplay : String
  code : String
  timestamp : Nat
  lang : String
  deriving Repr, DecidableEq

/-- The `result[lang]` object built from a detail payload
(leetcode-service.js lines 352-360). -/
def submissionResultOf (lang : String) (details : SubDetails) : SubmissionResult :=
  ⟨details.question.questionId,
   kebabToPascalCase details.question.titleSlug,
   details.question.titleSlug,
   "Accepted",
   details.code.getD "",
   details.timestamp,
   lang⟩

/-- The per-language detail loop (leetcode-service.js lines 237-361):
HTTP errors throw with `needsPause` exactly for 429 or 5xx; GraphQL
errors, a missing `data` object and null `submissionDetails` throw with
`needsPause = true`; a falsy `code` skips the language and continues. -/
def fetchDetails (env : LCEnv) : List (String × LangEntry) →
    Except LCError (List (String × SubmissionResult))
  | [] => Except.ok []
  | (lang, entry) :: rest =>
    if httpOk (env.detailStatus entry.id) = false then
      Except.error ⟨"HTTP error: " ++ toString (env.detailStatus entry.id),
        decide (env.detailStatus entry.id = 429 ∨ 500 ≤ env.detailStatus entry.id)⟩
    else
      match (env.detailBody entry.id).errors with
      | some _ => Except.error ⟨"GraphQL errors", true⟩
      | none =>
        match (env.detailBody entry.id).data with
        | none =>
          Except.error ⟨"Invalid details response - API rate limit likely reached", true⟩
        | some d =>
          match d.submissionDetails with
          | none =>
            Except.error ⟨"API rate limit reached - null submission details received", true⟩
          | some details =>
            if codeFalsy details.code then fetchDetails env rest
            else
              match fetchDetails env rest with
              | Except.error e => Except.error e
              | Except.ok acc => Except.ok ((lang, submissionResultOf lang details) :: acc)

/-- The detail payload reachable for an entry: `data.submissionDetails`
when `data` is present. -/
def detailsOf (env : LCEnv) (entry : LangEntry) : Option SubDetails :=
  match (env.detailBody entry.id).data with
  | none => none
  | some d => d.submissionDetails

/-- Structural validity of the detail response for an entry: ok HTTP
status, no GraphQL errors, `data` present and `submissionDetails`
non-null (the four throwing checks of the detail loop all pass). -/
def detailChecksPass (env : LCEnv) (entry : LangEntry) : Prop :=
  httpOk (env.detailStatus entry.id) = true ∧
  (env.detailBody entry.id).errors = none ∧
  ∃ d, (env.detailBody entry.id).data = some d ∧
    ∃ det, d.submissionDetails = some det

/-- `getSubmissionsByLanguage` (leetcode-service.js lines 112-372): check
the list response (HTTP status, GraphQL errors, missing data), filter to
accepted submissions, group per language keeping the most recent, then
fetch details per language.  The final emptiness check (lines 364-366)
returns the same empty object either way and is a no-op. -/
def getSubmissionsByLanguage (env : LCEnv) :
    Except LCError (List (String × SubmissionResult)) :=
  if httpOk env.listStatus = false then
    Except.error ⟨"HTTP error: " ++ toString env.listStatus,
      decide (env.listStatus = 429 ∨ 500 ≤ env.listStatus)⟩
  else
    match env.listBody.errors with
    | some _ => Except.error ⟨"GraphQL errors", true⟩
    | none =>
      match env.listBody.data with
      | none =>
        Except.error ⟨"Invalid submission list response - API rate limit likely reached", true⟩
      | some d =>
        match d.questionSubmissionList with
        | none =>
          Except.error ⟨"Invalid submission list response - API rate limit likely reached", true⟩
        | some submissions =>
          let acceptedSubmissions := submissions.filter (fun sub => sub.status == 10)
          if acceptedSubmissions.isEmpty then Except.ok []
          else fetchDetails env (groupByLanguage acceptedSubmissions)

theorem startNextProblem_start (c : SchedConfig) (hp : c.isPaused = false)
    (hlt : c.nextIndex < c.backlog.length) :
    startNextProblem c =
      { c with
        nextIndex := c.nextIndex + 1
        active := c.active ++ [⟨c.nextIndex, c.backlog.getD c.nextIndex 0, c.retryCount⟩]
        stats := { c.stats with current := c.nextIndex + 1 } } := by
  rw [startNextProblem, if_neg (by simp [hp]), if_neg (by omega)]

theorem startN_facts (n : Nat) (c : SchedConfig) (hp : c.isPaused = false)
    (hcap : c.nextIndex + n ≤ c.backlog.length) :
    (startNextProblem^[n] c).resolved = c.resolved ∧
    (startNextProblem^[n] c).isPaused = false ∧
    (startNextProblem^[n] c).timer = c.timer ∧
    (startNextProblem^[n] c).backlog = c.backlog ∧
    (startNextProblem^[n] c).nextIndex = c.nextIndex + n ∧
    (startNextProblem^[n] c).active.length = c.active.length + n ∧
    (startNextProblem^[n] c).failedProblems = c.failedProblems ∧
    (startNextProblem^[n] c).retryCount = c.retryCount ∧
    (startNextProblem^[n] c).stats.total = c.stats.total ∧
    (startNextProblem^[n] c).stats.processed = c.stats.processed ∧
    (startNextProblem^[n] c).stats.failed = c.stats.failed ∧
    (startNextProblem^[n] c).stats.synced = c.stats.synced ∧
    (startNextProblem^[n] c).stats.skipped = c.stats.skipped := by
  induction n generalizing c with
  | zero => simp [hp]
  | succ n ih =>
    obtain ⟨h1, h2, h3, h4, h5, h6, h7, h8, h9, h10, h11, h12, h13⟩ :=
      ih c hp (by omega)
    rw [Function.iterate_succ_apply']
    have hlt : (startNextProblem^[n] c).nextIndex < (startNextProblem^[n] c).backlog.length := by
      rw [h5, h4]; omega
    rw [startNextProblem_start _ h2 hlt]
    refine ⟨h1, h2, h3, h4, ?_, ?_, h7, h8, h9, h10, h11, h12, h13⟩
    · show (startNextProblem^[n] c).nextIndex + 1 = c.nextIndex + (n + 1)
      omega
    · show ((startNextProblem^[n] c).active ++ [_]).length = c.active.length + (n + 1)
      simp only [List.length_append, List.length_cons, List.length_nil, h6]
      omega

theorem find?_removeWorker_length :
    ∀ (l : List Worker) (i : Nat) (w : Worker),
      l.find? (fun x => x.idx == i) = some w →
      (removeWorker i l).length + 1 = l.length := by
  intro l i
  induction l with
  | nil => intro w h; simp at h
  | cons a t ih =>
    intro w h
    rw [List.find?_cons] at h
    by_cases ha : a.idx = i
    · rw [removeWorker, if_pos ha]
      simp
    · have hb : (a.idx == i) = false := by simp [ha]
      rw [hb] at h
      rw [removeWorker, if_neg ha]
      simp only [List.length_cons]
      rw [ih w h]

theorem good_startNextProblem (c : SchedConfig) (hg : GoodCfg c)
    (hr : c.resolved = false) : GoodCfg (startNextProblem c) := by
  obtain ⟨h1, h2, h3, h4, h5, h6⟩ := hg
  by_cases hp : c.isPaused = true
  · rw [startNextProblem, if_pos hp]
    exact ⟨h1, h2, h3, h4, h5, h6⟩
  · have hp' : c.isPaused = false := by revert hp; cases c.isPaused <;> simp
    by_cases hle : c.backlog.length ≤ c.nextIndex
    · by_cases ha : c.active.length = 0
      · rw [startNextProblem, if_neg (by simp [hp']), if_pos hle, if_pos ha]
        by_cases hretry : 0 < c.failedProblems.length ∧ c.retryCount < maxRetries
        · rw [if_pos hretry]
          have hacc := h4 hr
          refine ⟨by show 0 ≤ _; omega, ?_, ?_, ?_, ?_, h6⟩
          · intro hh
            exact absurd hh (by show ¬true = false; simp)
          · intro _
            rfl
          · intro _
            show c.stats.processed + (c.failedProblems.length - 0) + c.active.length +
              ([] : List Nat).length = c.stats.total
            simp only [List.length_nil]
            omega
          · intro hh
            exact absurd (hr ▸ hh) (by simp)
        · rw [if_neg hretry]
          by_cases hfp : 0 < c.failedProblems.length
          · rw [if_pos hfp]
            have hacc := h4 hr
            have hact : c.active = [] := List.length_eq_zero.mp ha
            refine ⟨h1, h2, h3, ?_, ?_, ?_⟩
            · intro hh
              exact absurd hh (by show ¬true = false; simp)
            · intro _
              refine ⟨?_, hact, h2 hp'⟩
              show c.stats.processed + c.failedProblems.length = c.stats.total
              omega
            · show c.stats.synced + c.stats.skipped + (c.stats.failed + c.failedProblems.length) =
                c.stats.processed + c.failedProblems.length
              unfold StatsBalanced at h6
              omega
          · rw [if_neg hfp]
            have hacc := h4 hr
            refine ⟨h1, h2, h3, ?_, ?_, h6⟩
            · intro hh
              exact absurd hh (by show ¬true = false; simp)
            · intro _
              refine ⟨?_, List.length_eq_zero.mp ha, h2 hp'⟩
              show c.stats.processed = c.stats.total
              omega
      · rw [startNextProblem, if_neg (by simp [hp']), if_pos hle, if_neg ha]
        exact ⟨h1, h2, h3, h4, h5, h6⟩
    · rw [startNextProblem_start c hp' (by omega)]
      have hacc := h4 hr
      refine ⟨by show c.nextIndex + 1 ≤ c.backlog.length; omega, h2, ?_, ?_, ?_, h6⟩
      · intro hh
        rw [h2 hp'] at hh
        cases hh
      · intro _
        show c.stats.processed + (c.backlog.length - (c.nextIndex + 1)) +
          (c.active ++ [Worker.mk c.nextIndex (c.backlog.getD c.nextIndex 0) c.retryCount]).length +
          c.failedProblems.length = c.stats.total
        simp only [List.length_append, List.length_cons, List.length_nil]
        omega
      · intro hh
        exact absurd (hr ▸ hh) (by simp)

theorem good_refill (c : SchedConfig) (n : Nat) (hg : GoodCfg c)
    (hr : c.resolved = false) (hp : c.isPaused = false)
    (hcap : c.nextIndex + n ≤ c.backlog.length) :
    GoodCfg (startNextProblem^[n] c) := by
  obtain ⟨f1, f2, f3, f4, f5, f6, f7, f8, f9, f10, f11, f12, f13⟩ :=
    startN_facts n c hp hcap
  obtain ⟨h1, h2, h3, h4, h5, h6⟩ := hg
  refine ⟨?_, ?_, ?_, ?_, ?_, ?_⟩
  · rw [f5, f4]; omega
  · intro _; rw [f3]; exact h2 hp
  · intro hh; rw [f3, h2 hp] at hh; cases hh
  · intro _
    rw [f10, f4, f5, f6, f7, f9]
    have := h4 hr
    omega
  · intro hh; rw [f1, hr] at hh; cases hh
  · unfold StatsBalanced at h6 ⊢
    rw [f10, f11, f12, f13]
    omega

theorem good_completeWorker (f : Nat → Nat → Outcome) (i : Nat) (c : SchedConfig)
    (hg : GoodCfg c) : GoodCfg (completeWorker f i c) := by
  obtain ⟨h1, h2, h3, h4, h5, h6⟩ := hg
  cases hfind : c.active.find? (fun x => x.idx == i) with
  | none =>
    simp only [completeWorker, hfind]
    exact ⟨h1, h2, h3, h4, h5, h6⟩
  | some w =>
    have hr : c.resolved = false := by
      cases hres : c.resolved
      · rfl
      · exfalso
        have hact := (h5 hres).2.1
        rw [hact] at hfind
        simp at hfind
    have hlen := find?_removeWorker_length c.active i w hfind
    have hacc := h4 hr
    cases hout : f w.problem w.attempt with
    | success n =>
      simp only [completeWorker, hfind, hout]
      by_cases hn : 0 < n
      · simp only [if_pos hn]
        have hg2 : GoodCfg { c with
            active := removeWorker i c.active
            stats := { c.stats with
              synced := c.stats.synced + 1, processed := c.stats.processed + 1 } } := by
          refine ⟨h1, h2, h3, ?_, ?_, ?_⟩
          · intro _
            show c.stats.processed + 1 + (c.backlog.length - c.nextIndex) +
              (removeWorker i c.active).length + c.failedProblems.length = c.stats.total
            omega
          · intro hh; simp [hr] at hh
          · show c.stats.synced + 1 + c.stats.skipped + c.stats.failed = c.stats.processed + 1
            unfold StatsBalanced at h6
            omega
        by_cases hp : c.isPaused = true
        · rw [if_pos hp]; exact hg2
        · rw [if_neg hp]; exact good_startNextProblem _ hg2 hr
      · simp only [if_neg hn]
        have hg2 : GoodCfg { c with
            active := removeWorker i c.active
            stats := { c.stats with
              skipped := c.stats.skipped + 1, processed := c.stats.processed + 1 } } := by
          refine ⟨h1, h2, h3, ?_, ?_, ?_⟩
          · intro _
            show c.stats.processed + 1 + (c.backlog.length - c.nextIndex) +
              (removeWorker i c.active).length + c.failedProblems.length = c.stats.total
            omega
          · intro hh; simp [hr] at hh
          · show c.stats.synced + (c.stats.skipped + 1) + c.stats.failed = c.stats.processed + 1
            unfold StatsBalanced at h6
            omega
        by_cases hp : c.isPaused = true
        · rw [if_pos hp]; exact hg2
        · rw [if_neg hp]; exact good_startNextProblem _ hg2 hr
    | permError =>
      simp only [completeWorker, hfind, hout]
      have hg2 : GoodCfg { c with
          active := removeWorker i c.active
          stats := { c.stats with
            failed := c.stats.failed + 1, processed := c.stats.processed + 1 } } := by
        refine ⟨h1, h2, h3, ?_, ?_, ?_⟩
        · intro _
          show c.stats.processed + 1 + (c.backlog.length - c.nextIndex) +
            (removeWorker i c.active).length + c.failedProblems.length = c.stats.total
          omega
        · intro hh; simp [hr] at hh
        · show c.stats.synced + c.stats.skipped + (c.stats.failed + 1) = c.stats.processed + 1
          unfold StatsBalanced at h6
          omega
      by_cases hp : c.isPaused = true
      · rw [if_pos hp]; exact hg2
      · rw [if_neg hp]; exact good_startNextProblem _ hg2 hr
    | pauseError =>
      simp only [completeWorker, hfind, hout]
      by_cases hp : c.isPaused = true
      · rw [if_pos hp]
        refine ⟨h1, h2, h3, ?_, ?_, h6⟩
        · intro _
          show c.stats.processed + (c.backlog.length - c.nextIndex) +
            (removeWorker i c.active).length +
            (c.failedProblems ++ [w.problem]).length = c.stats.total
          simp only [List.length_append, List.length_cons, List.length_nil]
          omega
        · intro hh; simp [hr] at hh
      · rw [if_neg hp]
        refine ⟨h1, ?_, ?_, ?_, ?_, h6⟩
        · intro hh; simp at hh
        · intro hh; simp at hh
        · intro _
          show c.stats.processed + (c.backlog.length - c.nextIndex) +
            (removeWorker i c.active).length +
            (c.failedProblems ++ [w.problem]).length = c.stats.total
          simp only [List.length_append, List.length_cons, List.length_nil]
          omega
        · intro hh; simp [hr] at hh

theorem good_fireTimer (c : SchedConfig) (hg : GoodCfg c) :
    GoodCfg (fireTimer c) := by
  obtain ⟨h1, h2, h3, h4, h5, h6⟩ := hg
  cases ht : c.timer with
  | none =>
    simp only [fireTimer, ht]
    exact ⟨h1, h2, h3, h4, h5, h6⟩
  | some k =>
    have hr : c.resolved = false := by
      cases hres : c.resolved
      · rfl
      · exfalso
        have := (h5 hres).2.2
        rw [this] at ht
        cases ht
    have hg1 : GoodCfg { c with isPaused := false, timer := none } := by
      refine ⟨h1, fun _ => rfl, ?_, ?_, ?_, h6⟩
      · intro hh; simp at hh
      · intro _; exact h4 hr
      · intro hh; simp [hr] at hh
    cases k with
    | resume =>
      simp only [fireTimer, ht, resumeSync]
      apply good_refill _ _ hg1 hr rfl
      show c.nextIndex + min (maxParallel - c.active.length)
        (c.backlog.length - c.nextIndex) ≤ c.backlog.length
      omega
    | retryKick =>
      have hni : c.nextIndex = 0 := h3 ht
      simp only [fireTimer, ht, retryKickTimer]
      apply good_refill _ _ hg1 hr rfl
      show c.nextIndex + min maxParallel c.backlog.length ≤ c.backlog.length
      omega

theorem good_applyEvent (f : Nat → Nat → Outcome) (c : SchedConfig)
    (e : SchedEvent) (hg : GoodCfg c) : GoodCfg (applyEvent f c e) := by
  cases e with
  | complete i => exact good_completeWorker f i c hg
  | timer => exact good_fireTimer c hg

theorem good_foldl (f : Nat → Nat → Outcome) :
    ∀ (sched : List SchedEvent) (c : SchedConfig), GoodCfg c →
      GoodCfg (sched.foldl (applyEvent f) c) := by
  intro sched
  induction sched with
  | nil => intro c hg; exact hg
  | cons e s ih =>
    intro c hg
    exact ih (applyEvent f c e) (good_applyEvent f c e hg)

theorem good_initConfig (ps : List Nat) : GoodCfg (initConfig ps) := by
  refine ⟨?_, fun _ => rfl, ?_, ?_, ?_, ?_⟩
  · show 0 ≤ ps.length; omega
  · intro hh; simp [initConfig] at hh
  · intro _
    show 0 + (ps.length - 0) + 0 + 0 = ps.length
    omega
  · intro hh; simp [initConfig] at hh
  · show 0 + 0 + 0 = 0; rfl

theorem good_startQueue (ps : List Nat) : GoodCfg (startQueue ps) := by
  unfold startQueue
  apply good_refill _ _ (good_initConfig ps) rfl rfl
  show 0 + min maxParallel ps.length ≤ ps.length
  omega

theorem good_runSched (f : Nat → Nat → Outcome) (ps : List Nat)
    (sched : List SchedEvent) : GoodCfg (runSched f ps sched) :=
  good_foldl f sched (startQueue ps) (good_startQueue ps)

/-- C1: for every sync session whose scheduler promise resolves, the final
stats satisfy `processed = total`, whatever the per-problem outcomes were:
every interleaving of worker completions and timer fires (every event
schedule) that reaches the resolved state has processed exactly as many
problems as the backlog contained. -/
theorem processed_eq_total_at_completion (outcomeOf : Nat → Nat → Outcome)
    (ps : List Nat) (sched : List SchedEvent)
    (hres : (runSched outcomeOf ps sched).resolved = true) :
    (runSched outcomeOf ps sched).stats.processed =
      (runSched outcomeOf ps sched).stats.total :=
  ((good_runSched outcomeOf ps sched).2.2.2.2.1 hres).1

theorem processed_eq_total_at_completion_witness :
    (runSched (fun _ _ => Outcome.success 1) [0, 1]
      [SchedEvent.complete 0, SchedEvent.complete 1]).resolved = true ∧
    (runSched (fun _ _ => Outcome.success 1) [0, 1]
      [SchedEvent.complete 0, SchedEvent.complete 1]).stats.processed =
    (runSched (fun _ _ => Outcome.success 1) [0, 1]
      [SchedEvent.complete 0, SchedEvent.complete 1]).stats.total :=
  ⟨by decide, processed_eq_total_at_completion _ _ _ (by decide)⟩

/-- C10: after every scheduler step (every event schedule, hence every
reachable configuration), `synced + skipped + failed = processed`: each
terminal disposition increments `processed` together with exactly one of
the three disposition counters.  The successive increments inside
`processProblem` are separated by no suspension point, so they are modelled
as one atomic update. -/
theorem stats_disposition_balance (outcomeOf : Nat → Nat → Outcome)
    (ps : List Nat) (sched : List SchedEvent) :
    (runSched outcomeOf ps sched).stats.synced +
      (runSched outcomeOf ps sched).stats.skipped +
      (runSched outcomeOf ps sched).stats.failed =
    (runSched outcomeOf ps sched).stats.processed :=
  (good_runSched outcomeOf ps sched).2.2.2.2.2

theorem pauseReach_step (e : SchedEvent) (c : SchedConfig) (h : PauseReach c) :
    PauseReach (applyEvent pauseOutcome c e) := by
  rcases h with h | h | h <;> subst h
  · cases e with
    | complete i =>
      by_cases hi : i = 0
      · subst hi
        exact Or.inr (Or.inl (by decide))
      · left
        show completeWorker pauseOutcome i pauseCfgRunning = pauseCfgRunning
        have hbeq : ((Worker.mk 0 0 0).idx == i) = false := by
          rw [beq_eq_false_iff_ne]
          show (0 : Nat) ≠ i
          omega
        have hfind : pauseCfgRunning.active.find? (fun x => x.idx == i) = none := by
          show List.find? (fun x => x.idx == i) [Worker.mk 0 0 0] = none
          simp [List.find?_cons, hbeq]
        simp [completeWorker, hfind]
    | timer => exact Or.inl (by decide)
  · cases e with
    | complete i => exact Or.inr (Or.inl rfl)
    | timer => exact Or.inr (Or.inr (by decide))
  · cases e with
    | complete i => exact Or.inr (Or.inr rfl)
    | timer => exact Or.inr (Or.inr (by decide))

theorem pauseReach_foldl (sched : List SchedEvent) :
    ∀ (c : SchedConfig), PauseReach c →
      PauseReach (sched.foldl (applyEvent pauseOutcome) c) := by
  induction sched with
  | nil => intro c h; exact h
  | cons e s ih =>
    intro c h
    exact ih (applyEvent pauseOutcome c e) (pauseReach_step e c h)

/-- C3 (divergence witness): in a session whose single problem always
fails with `needsPause = true`, no event schedule whatsoever brings the
scheduler to resolution: the session never completes, no retry round is
ever entered (`retryCount` stays 0, so the problem is re-attempted zero
times rather than `maxRetries` times), and the problem is never counted
in `stats.failed` or `stats.processed`.  After the pause timer fires,
`resumeSync` fills `min (maxParallel - 0) (backlog length - nextIndex) = 0`
slots (sync-service.js lines 233-241), so `startNextProblem` is never
called again and the retry/flush/resolve branch is unreachable. -/
theorem alwaysPause_never_completes (sched : List SchedEvent) :
    (runSched pauseOutcome [0] sched).resolved = false ∧
    (runSched pauseOutcome [0] sched).retryCount = 0 ∧
    (runSched pauseOutcome [0] sched).stats.processed = 0 ∧
    (runSched pauseOutcome [0] sched).stats.failed = 0 := by
  have hstart : PauseReach (startQueue [0]) := Or.inl (by decide)
  have h := pauseReach_foldl sched (startQueue [0]) hstart
  rcases h with h | h | h <;>
    · show _ ∧ _ ∧ _ ∧ _
      rw [runSched] at *
      rw [h]
      exact ⟨by decide, by decide, by decide, by decide⟩

/-- C4 counterexample: triggering `pauseAndScheduleResume` while the
scheduler is already paused does not reset the pause timer to a full
pause duration.  At time 5000 with a pending timer due at 1000, resetting
would give the deadline `5000 + pauseDuration`; the code leaves the state
untouched because the whole body sits under `if (!isPaused)`. -/
theorem pause_retrigger_reset_counterexample :
    (pauseAndScheduleResume 5000 ⟨true, some 1000⟩).timerDeadline ≠
      some (5000 + pauseDuration) ∧
    pauseAndScheduleResume 5000 ⟨true, some 1000⟩ = ⟨true, some 1000⟩ := by
  decide

/-- C4 (amended): a pause trigger while the scheduler is already paused is
ignored entirely: the `if (!isPaused)` guard skips the body, so the
existing timer keeps running unchanged toward its original deadline and no
second timer is stacked (the state holds at most one timer). -/
theorem pause_retrigger_ignored (now : Nat) (st : PauseState)
    (h : st.isPaused = true) : pauseAndScheduleResume now st = st := by
  unfold pauseAndScheduleResume
  rw [if_neg (by simp [h])]

theorem pause_retrigger_ignored_witness :
    pauseAndScheduleResume 5000 ⟨true, some 7⟩ = ⟨true, some 7⟩ :=
  pause_retrigger_ignored 5000 ⟨true, some 7⟩ (by decide)

/-- C5: a `startSync` call made while the persisted sync-in-progress flag
is true returns `success := false` with the overlap message immediately
and leaves everything unchanged: the stats object, the failed-problems
list, the GitHub operation queue (all fields of the service state) and the
persisted storage, performing no fetch. -/
theorem startSync_rejects_overlap (svc : ServiceState) (storage : StorageState)
    (fetchResult : FetchAllResult) (outcomeOf : Nat → Nat → Outcome)
    (sched : List SchedEvent) (h : storage.syncInProgress = true) :
    startSync svc storage fetchResult outcomeOf sched =
      (⟨false, "Synchronization already in progress"⟩, svc, storage, false) := by
  unfold startSync
  rw [if_pos (by simp [h])]

theorem startSync_rejects_overlap_witness :
    startSync ⟨false, SyncStats.reset, [], 0, [], false, none⟩
      ⟨true, "in_progress", "Synchronization started..."⟩
      ⟨true, some "u", [⟨0, "ac"⟩]⟩ (fun _ _ => Outcome.success 1) [] =
    (⟨false, "Synchronization already in progress"⟩,
      ⟨false, SyncStats.reset, [], 0, [], false, none⟩,
      ⟨true, "in_progress", "Synchronization started..."⟩, false) :=
  startSync_rejects_overlap _ _ _ _ _ (by decide)

/-- C2 counterexample: a session with one problem that fails permanently
completes with `stats.processed = stats.total` and `stats.failed = 1 > 0`;
the claim requires the persisted status to be "partial" in that case, but
`startSync` persists "success" (the status only compares `processed` with
`total` and ignores `failed`). -/
theorem completed_failed_sync_status_counterexample :
    ((startSync ⟨false, SyncStats.reset, [], 0, [], false, none⟩
        ⟨false, "", "No synchronization performed yet"⟩
        ⟨true, some "user", [⟨0, "ac"⟩]⟩
        (fun _ _ => Outcome.permError) [SchedEvent.complete 0]).2.1.stats.processed =
      (startSync ⟨false, SyncStats.reset, [], 0, [], false, none⟩
        ⟨false, "", "No synchronization performed yet"⟩
        ⟨true, some "user", [⟨0, "ac"⟩]⟩
        (fun _ _ => Outcome.permError) [SchedEvent.complete 0]).2.1.stats.total) ∧
    ((startSync ⟨false, SyncStats.reset, [], 0, [], false, none⟩
        ⟨false, "", "No synchronization performed yet"⟩
        ⟨true, some "user", [⟨0, "ac"⟩]⟩
        (fun _ _ => Outcome.permError) [SchedEvent.complete 0]).2.1.stats.failed = 1) ∧
    ((startSync ⟨false, SyncStats.reset, [], 0, [], false, none⟩
        ⟨false, "", "No synchronization performed yet"⟩
        ⟨true, some "user", [⟨0, "ac"⟩]⟩
        (fun _ _ => Outcome.permError) [SchedEvent.complete 0]).2.2.1.lastSyncStatus ≠
      "partial") ∧
    ((startSync ⟨false, SyncStats.reset, [], 0, [], false, none⟩
        ⟨false, "", "No synchronization performed yet"⟩
        ⟨true, some "user", [⟨0, "ac"⟩]⟩
        (fun _ _ => Outcome.permError) [SchedEvent.complete 0]).2.2.1.lastSyncStatus =
      "success") := by
  decide

/-- C2 (amended): on completion `startSync` persists "success" exactly
when `stats.processed = stats.total` and "partial" otherwise, with
`stats.failed` playing no role; and since a resolving scheduler always
ends with `processed = total`, every session whose scheduler resolves
persists "success" and resolves with `success := true` — even when
`stats.failed > 0`. -/
theorem completed_sync_persists_success
    (svc : ServiceState) (storage : StorageState) (fetchResult : FetchAllResult)
    (outcomeOf : Nat → Nat → Outcome) (sched : List SchedEvent)
    (solved : List LCProblem) (cache2 : Option (List LCProblem)) (didFetch : Bool)
    (hflag : storage.syncInProgress = false)
    (hok : getSolvedProblems fetchResult svc.cachedProblems =
      Except.ok (solved, cache2, didFetch))
    (hres : (runSched outcomeOf (solved.map (fun p => p.id)) sched).resolved = true) :
    (startSync svc storage fetchResult outcomeOf sched).2.2.1.lastSyncStatus =
      "success" ∧
    (startSync svc storage fetchResult outcomeOf sched).1.success = true := by
  have hpt :=
    ((good_runSched outcomeOf (solved.map (fun p => p.id)) sched).2.2.2.2.1 hres).1
  unfold startSync
  rw [if_neg (by simp [hflag]), hok]
  simp [hpt]

theorem completed_sync_persists_success_witness :
    ((startSync ⟨false, SyncStats.reset, [], 0, [], false, none⟩
        ⟨false, "", "No synchronization performed yet"⟩
        ⟨true, some "user", [⟨0, "ac"⟩]⟩
        (fun _ _ => Outcome.permError) [SchedEvent.complete 0]).2.2.1.lastSyncStatus =
      "success") ∧
    ((startSync ⟨false, SyncStats.reset, [], 0, [], false, none⟩
        ⟨false, "", "No synchronization performed yet"⟩
        ⟨true, some "user", [⟨0, "ac"⟩]⟩
        (fun _ _ => Outcome.permError) [SchedEvent.complete 0]).1.success = true) :=
  completed_sync_persists_success _ _ _ _ _ [⟨0, "ac"⟩] (some [⟨0, "ac"⟩]) true
    (by decide) (by rfl) (by decide)

/-- C9 counterexample: after a completed first session, a second
`startSync` on the same (singleton) service instance does not perform a
fresh full-list fetch: `getSolvedProblems` hits the surviving cache (ghost
fetch flag false), so the second session still sees 1 problem even though
the remote list now has 2, and the stale cache is retained. -/
theorem cache_survives_session_end_counterexample :
    ((startSync
        (startSync ⟨false, SyncStats.reset, [], 0, [], false, none⟩
          ⟨false, "", ""⟩ ⟨true, some "u", [⟨0, "ac"⟩]⟩
          (fun _ _ => Outcome.success 1) [SchedEvent.complete 0]).2.1
        (startSync ⟨false, SyncStats.reset, [], 0, [], false, none⟩
          ⟨false, "", ""⟩ ⟨true, some "u", [⟨0, "ac"⟩]⟩
          (fun _ _ => Outcome.success 1) [SchedEvent.complete 0]).2.2.1
        ⟨true, some "u", [⟨0, "ac"⟩, ⟨1, "ac"⟩]⟩
        (fun _ _ => Outcome.success 1) [SchedEvent.complete 0]).2.2.2 = false) ∧
    ((startSync
        (startSync ⟨false, SyncStats.reset, [], 0, [], false, none⟩
          ⟨false, "", ""⟩ ⟨true, some "u", [⟨0, "ac"⟩]⟩
          (fun _ _ => Outcome.success 1) [SchedEvent.complete 0]).2.1
        (startSync ⟨false, SyncStats.reset, [], 0, [], false, none⟩
          ⟨false, "", ""⟩ ⟨true, some "u", [⟨0, "ac"⟩]⟩
          (fun _ _ => Outcome.success 1) [SchedEvent.complete 0]).2.2.1
        ⟨true, some "u", [⟨0, "ac"⟩, ⟨1, "ac"⟩]⟩
        (fun _ _ => Outcome.success 1) [SchedEvent.complete 0]).2.1.stats.total = 1) ∧
    ((startSync
        (startSync ⟨false, SyncStats.reset, [], 0, [], false, none⟩
          ⟨false, "", ""⟩ ⟨true, some "u", [⟨0, "ac"⟩]⟩
          (fun _ _ => Outcome.success 1) [SchedEvent.complete 0]).2.1
        (startSync ⟨false, SyncStats.reset, [], 0, [], false, none⟩
          ⟨false, "", ""⟩ ⟨true, some "u", [⟨0, "ac"⟩]⟩
          (fun _ _ => Outcome.success 1) [SchedEvent.complete 0]).2.2.1
        ⟨true, some "u", [⟨0, "ac"⟩, ⟨1, "ac"⟩]⟩
        (fun _ _ => Outcome.success 1) [SchedEvent.complete 0]).2.1.cachedProblems =
      some [⟨0, "ac"⟩]) := by
  decide

/-- C9 (amended): the solved-problem cache lives for the lifetime of the
service instance, not one session.  Within a session repeated
`getSolvedProblems` calls reuse the cache (no second full-list fetch), and
the cache is not discarded at session end: any later `startSync` on the
same service instance with a populated cache also performs no fresh
fetch. -/
theorem solved_cache_reused_across_sessions :
    (∀ (fetchResult : FetchAllResult) (ps : List LCProblem),
      getSolvedProblems fetchResult (some ps) =
        Except.ok (ps.filter (fun p => p.status == "ac"), some ps, false)) ∧
    (∀ (svc : ServiceState) (storage : StorageState)
        (fetchResult : FetchAllResult) (outcomeOf : Nat → Nat → Outcome)
        (sched : List SchedEvent) (ps : List LCProblem),
      storage.syncInProgress = false →
      svc.cachedProblems = some ps →
      (startSync svc storage fetchResult outcomeOf sched).2.2.2 = false) := by
  constructor
  · intro fetchResult ps
    rfl
  · intro svc storage fetchResult outcomeOf sched ps h1 h2
    have hgs : getSolvedProblems fetchResult svc.cachedProblems =
        Except.ok (ps.filter (fun p => p.status == "ac"), some ps, false) := by
      rw [h2]
      rfl
    unfold startSync
    rw [if_neg (by simp [h1]), hgs]

theorem solved_cache_reused_across_sessions_witness :
    (getSolvedProblems ⟨true, some "u", [⟨1, "ac"⟩]⟩ (some [⟨0, "ac"⟩]) =
      Except.ok ([⟨0, "ac"⟩], some [⟨0, "ac"⟩], false)) ∧
    ((startSync ⟨false, SyncStats.reset, [], 0, [], false, some [⟨0, "ac"⟩]⟩
        ⟨false, "", ""⟩ ⟨true, some "u", [⟨1, "ac"⟩]⟩
        (fun _ _ => Outcome.success 1) [SchedEvent.complete 0]).2.2.2 = false) :=
  ⟨solved_cache_reused_across_sessions.1 ⟨true, some "u", [⟨1, "ac"⟩]⟩ [⟨0, "ac"⟩],
    solved_cache_reused_across_sessions.2 _ _ _ _ _ [⟨0, "ac"⟩] (by decide) (by decide)⟩

/-- C6: for a `createFile` call whose remote write response is non-ok,
the call returns normally exactly when the status is 422 and the parsed
error message includes "already exists"; every other non-ok response
raises an error to the caller. -/
theorem createFile_conflict_idempotent (resp : GithubResponse)
    (hnok : resp.ok = false) :
    ((resp.status = 422 ∧ ∃ m, resp.message = some m ∧
        strIncludes m "already exists" = true) →
      createFile resp = Except.ok resp) ∧
    (¬ (resp.status = 422 ∧ ∃ m, resp.message = some m ∧
        strIncludes m "already exists" = true) →
      createFile resp =
        Except.error ("Failed to create file: " ++ toString resp.status)) := by
  constructor
  · rintro ⟨h422, m, hm, hincl⟩
    unfold createFile
    rw [if_neg (by simp [hnok]), if_pos]
    rw [h422, hm]
    simp [hincl]
  · intro hn
    unfold createFile
    rw [if_neg (by simp [hnok]), if_neg]
    intro hc
    rw [Bool.and_eq_true] at hc
    obtain ⟨hb, hmatch⟩ := hc
    apply hn
    refine ⟨by simpa using hb, ?_⟩
    cases hmsg : resp.message with
    | none => rw [hmsg] at hmatch; cases hmatch
    | some m => exact ⟨m, rfl, by rw [hmsg] at hmatch; exact hmatch⟩

theorem createFile_conflict_idempotent_witness :
    createFile ⟨false, 422, some "file already exists"⟩ =
      Except.ok ⟨false, 422, some "file already exists"⟩ ∧
    createFile ⟨false, 404, none⟩ =
      Except.error ("Failed to create file: " ++ toString 404) :=
  ⟨(createFile_conflict_idempotent ⟨false, 422, some "file already exists"⟩
      (by decide)).1 ⟨rfl, "file already exists", rfl, by decide⟩,
   (createFile_conflict_idempotent ⟨false, 404, none⟩ (by decide)).2
      (by rintro ⟨h, _⟩; exact absurd h (by decide))⟩

theorem lookupLang_setLang_self :
    ∀ (acc : List (String × LangEntry)) (k : String) (e : LangEntry),
      lookupLang (setLang acc k e) k = some e := by
  intro acc
  induction acc with
  | nil => intro k e; simp [setLang, lookupLang]
  | cons a rest ih =>
    intro k e
    obtain ⟨ka, va⟩ := a
    simp only [setLang]
    by_cases h : ka = k
    · simp only [if_pos h, lookupLang, if_pos h]
    · simp only [if_neg h, lookupLang, if_neg h]
      exact ih k e

theorem lookupLang_setLang_ne :
    ∀ (acc : List (String × LangEntry)) (k k' : String) (e : LangEntry),
      k' ≠ k → lookupLang (setLang acc k e) k' = lookupLang acc k' := by
  intro acc
  induction acc with
  | nil =>
    intro k k' e hne
    simp only [setLang, lookupLang]
    rw [if_neg (fun hh => hne hh.symm)]
  | cons a rest ih =>
    intro k k' e hne
    obtain ⟨ka, va⟩ := a
    simp only [setLang]
    by_cases h : ka = k
    · simp only [if_pos h, lookupLang]
      by_cases h2 : ka = k'
      · exact absurd (h2.symm.trans h) hne
      · simp only [if_neg h2]
    · simp only [if_neg h, lookupLang]
      by_cases h2 : ka = k'
      · simp only [if_pos h2]
      · simp only [if_neg h2]
        exact ih k k' e hne

theorem mergeBest_none_right (a : Option LangEntry) : mergeBest a none = a := by
  cases a <;> rfl

theorem specFirstMax_cons (s : RawSubmission) (l : List RawSubmission) :
    specFirstMaxByTimestamp (s :: l) =
      mergeBest (some (entryOf s)) (specFirstMaxByTimestamp l) := by
  cases hl : specFirstMaxByTimestamp l with
  | none => rw [specFirstMaxByTimestamp, hl]; rfl
  | some e => rw [specFirstMaxByTimestamp, hl]; rfl

theorem mergeBest_assoc (a b c : Option LangEntry) :
    mergeBest (mergeBest a b) c = mergeBest a (mergeBest b c) := by
  cases a with
  | none => rfl
  | some ea =>
    cases b with
    | none => cases c <;> rfl
    | some eb =>
      cases c with
      | none => rw [mergeBest_none_right, mergeBest_none_right]
      | some ec =>
        by_cases h1 : ea.timestamp < eb.timestamp
        · by_cases h2 : eb.timestamp < ec.timestamp
          · have h3 : ea.timestamp < ec.timestamp := by omega
            simp [mergeBest, h1, h2, h3]
          · simp [mergeBest, h1, h2]
        · by_cases h2 : eb.timestamp < ec.timestamp
          · simp [mergeBest, h1, h2]
          · have h3 : ¬ ea.timestamp < ec.timestamp := by omega
            simp [mergeBest, h1, h2, h3]

theorem lookup_foldl_group :
    ∀ (subs : List RawSubmission) (acc : List (String × LangEntry)) (lang : String),
      lookupLang (subs.foldl groupStep acc) lang =
        mergeBest (lookupLang acc lang)
          (specFirstMaxByTimestamp (subs.filter (fun x => x.lang == lang))) := by
  intro subs
  induction subs with
  | nil =>
    intro acc lang
    simp only [List.foldl_nil, List.filter_nil, specFirstMaxByTimestamp,
      mergeBest_none_right]
  | cons s rest ih =>
    intro acc lang
    rw [List.foldl_cons, ih (groupStep acc s) lang]
    by_cases hs : s.lang = lang
    · subst hs
      have hstep : lookupLang (groupStep acc s) s.lang =
          mergeBest (lookupLang acc s.lang) (some (entryOf s)) := by
        unfold groupStep
        cases hcur : lookupLang acc s.lang with
        | none =>
          show lookupLang (setLang acc s.lang (entryOf s)) s.lang =
            mergeBest none (some (entryOf s))
          rw [lookupLang_setLang_self]
          rfl
        | some cur =>
          show lookupLang
              (if cur.timestamp < s.timestamp then setLang acc s.lang (entryOf s)
               else acc) s.lang =
            mergeBest (some cur) (some (entryOf s))
          by_cases hts : cur.timestamp < s.timestamp
          · rw [if_pos hts, lookupLang_setLang_self]
            simp [mergeBest, entryOf, hts]
          · rw [if_neg hts, hcur]
            simp [mergeBest, entryOf, hts]
      rw [hstep, mergeBest_assoc]
      congr 1
      rw [List.filter_cons, if_pos (by simp), specFirstMax_cons]
    · have hstep : lookupLang (groupStep acc s) lang = lookupLang acc lang := by
        unfold groupStep
        cases hcur : lookupLang acc s.lang with
        | none =>
          show lookupLang (setLang acc s.lang (entryOf s)) lang = lookupLang acc lang
          exact lookupLang_setLang_ne acc s.lang lang (entryOf s)
            (fun hh => hs hh.symm)
        | some cur =>
          show lookupLang
              (if cur.timestamp < s.timestamp then setLang acc s.lang (entryOf s)
               else acc) lang = lookupLang acc lang
          by_cases hts : cur.timestamp < s.timestamp
          · rw [if_pos hts]
            exact lookupLang_setLang_ne acc s.lang lang (entryOf s)
              (fun hh => hs hh.symm)
          · rw [if_neg hts]
      rw [hstep, List.filter_cons,
        if_neg (by simp only [beq_iff_eq]; exact fun hh => hs hh)]

/-- C7: for every list of accepted submissions and every language, the
per-language grouping retains exactly the submission the spec describes:
the one with the greatest timestamp among that language's submissions,
with ties broken by keeping the first-seen one (a strictly greater
timestamp is required to replace the current choice). -/
theorem grouping_keeps_first_latest_per_language
    (subs : List RawSubmission) (lang : String) :
    lookupLang (groupByLanguage subs) lang =
      specFirstMaxByTimestamp (subs.filter (fun x => x.lang == lang)) := by
  rw [groupByLanguage, lookup_foldl_group subs [] lang]
  rfl

/-- C8: the failure classification of `getSubmissionsByLanguage`: an HTTP
429 or 5xx response throws with `needsPause = true`; a response carrying
GraphQL errors or lacking the expected data throws with
`needsPause = true`; a submission whose fetched details lack code is
skipped without raising (the detail loop returns exactly the
non-falsy-code entries when every detail response is structurally valid);
any other HTTP error status throws without `needsPause`; and the detail
fetch classifies its HTTP status the same way as the list fetch. -/
theorem submissions_error_classification :
    (∀ env : LCEnv, env.listStatus = 429 ∨ 500 ≤ env.listStatus →
      ∃ e, getSubmissionsByLanguage env = Except.error e ∧ e.needsPause = true) ∧
    (∀ env : LCEnv, httpOk env.listStatus = true →
      (env.listBody.errors ≠ none ∨ env.listBody.data = none ∨
        ∃ d, env.listBody.data = some d ∧ d.questionSubmissionList = none) →
      ∃ e, getSubmissionsByLanguage env = Except.error e ∧ e.needsPause = true) ∧
    (∀ (env : LCEnv) (entries : List (String × LangEntry)),
      (∀ p ∈ entries, detailChecksPass env p.2) →
      fetchDetails env entries = Except.ok (entries.filterMap (fun p =>
        match detailsOf env p.2 with
        | none => none
        | some details =>
          if codeFalsy details.code then none
          else some (p.1, submissionResultOf p.1 details)))) ∧
    (∀ env : LCEnv, httpOk env.listStatus = false →
      env.listStatus ≠ 429 → env.listStatus < 500 →
      ∃ e, getSubmissionsByLanguage env = Except.error e ∧ e.needsPause = false) ∧
    (∀ (env : LCEnv) (lang : String) (entry : LangEntry)
        (rest : List (String × LangEntry)),
      httpOk (env.detailStatus entry.id) = false →
      ∃ e, fetchDetails env ((lang, entry) :: rest) = Except.error e ∧
        e.needsPause =
          decide (env.detailStatus entry.id = 429 ∨ 500 ≤ env.detailStatus entry.id)) := by
  refine ⟨?_, ?_, ?_, ?_, ?_⟩
  · intro env h
    have hf : httpOk env.listStatus = false := by
      unfold httpOk
      rw [decide_eq_false_iff_not]
      rcases h with h | h <;> omega
    refine ⟨⟨"HTTP error: " ++ toString env.listStatus,
      decide (env.listStatus = 429 ∨ 500 ≤ env.listStatus)⟩, ?_, ?_⟩
    · unfold getSubmissionsByLanguage
      rw [if_pos hf]
    · simp only [decide_eq_true_eq]
      exact h
  · intro env hok hbad
    unfold getSubmissionsByLanguage
    rw [if_neg (by simp [hok])]
    cases herr : env.listBody.errors with
    | some es =>
      exact ⟨⟨"GraphQL errors", true⟩, rfl, rfl⟩
    | none =>
      rcases hbad with hbe | hbd | ⟨d, hd, hq⟩
      · exact absurd herr hbe
      · simp only [hbd]
        exact ⟨⟨"Invalid submission list response - API rate limit likely reached",
          true⟩, rfl, rfl⟩
      · simp only [hd, hq]
        exact ⟨⟨"Invalid submission list response - API rate limit likely reached",
          true⟩, rfl, rfl⟩
  · intro env entries h
    induction entries with
    | nil => rfl
    | cons p rest ih =>
      obtain ⟨lang, entry⟩ := p
      obtain ⟨hok, herr, d, hd, det, hdet⟩ := h (lang, entry) (List.mem_cons_self _ _)
      have hrest := fun q hq => h q (List.mem_cons_of_mem _ hq)
      have hdof : detailsOf env entry = some det := by
        unfold detailsOf
        rw [hd]
        exact hdet
      rw [fetchDetails]
      rw [if_neg (by simp [hok])]
      simp only [herr, hd, hdet]
      rw [List.filterMap_cons]
      simp only [hdof]
      by_cases hcf : codeFalsy det.code = true
      · rw [if_pos hcf, if_pos hcf]
        exact ih hrest
      · have hcf' : codeFalsy det.code = false := by
          revert hcf; cases codeFalsy det.code <;> simp
        rw [if_neg (by simp [hcf']), if_neg (by simp [hcf']), ih hrest]
  · intro env hf h429 h500
    refine ⟨⟨"HTTP error: " ++ toString env.listStatus,
      decide (env.listStatus = 429 ∨ 500 ≤ env.listStatus)⟩, ?_, ?_⟩
    · unfold getSubmissionsByLanguage
      rw [if_pos hf]
    · rw [decide_eq_false_iff_not]
      rintro (h | h) <;> omega
  · intro env lang entry rest h
    refine ⟨⟨"HTTP error: " ++ toString (env.detailStatus entry.id),
      decide (env.detailStatus entry.id = 429 ∨ 500 ≤ env.detailStatus entry.id)⟩,
      ?_, rfl⟩
    rw [fetchDetails, if_pos h]

theorem submissions_error_classification_witness :
    (∃ e, getSubmissionsByLanguage ⟨429, ⟨none, none⟩, fun _ => 200,
        fun _ => ⟨none, none⟩⟩ = Except.error e ∧ e.needsPause = true) ∧
    (∃ e, getSubmissionsByLanguage ⟨200, ⟨some ["error"], none⟩, fun _ => 200,
        fun _ => ⟨none, none⟩⟩ = Except.error e ∧ e.needsPause = true) ∧
    (fetchDetails ⟨200, ⟨none, none⟩, fun _ => 200,
        fun _ => ⟨none, some ⟨some ⟨some "", 3, ⟨"1", "two-sum"⟩⟩⟩⟩⟩
      [("cpp", ⟨7, "t", 1, "cpp"⟩)] = Except.ok []) ∧
    (∃ e, getSubmissionsByLanguage ⟨404, ⟨none, none⟩, fun _ => 200,
        fun _ => ⟨none, none⟩⟩ = Except.error e ∧ e.needsPause = false) ∧
    (∃ e, fetchDetails ⟨200, ⟨none, none⟩, fun _ => 503, fun _ => ⟨none, none⟩⟩
      [("cpp", ⟨7, "t", 1, "cpp"⟩)] = Except.error e ∧ e.needsPause = true) := by
  refine ⟨?_, ?_, ?_, ?_, ?_⟩
  · exact submissions_error_classification.1 _ (Or.inl rfl)
  · exact submissions_error_classification.2.1 _ (by decide) (Or.inl (by decide))
  · have h := submissions_error_classification.2.2.1
      ⟨200, ⟨none, none⟩, fun _ => 200,
        fun _ => ⟨none, some ⟨some ⟨some "", 3, ⟨"1", "two-sum"⟩⟩⟩⟩⟩
      [("cpp", ⟨7, "t", 1, "cpp"⟩)]
      (by
        intro p hp
        simp only [List.mem_singleton] at hp
        subst hp
        exact ⟨by decide, rfl, ⟨_, rfl, _, rfl⟩⟩)
    exact h.trans (by rfl)
  · exact submissions_error_classification.2.2.2.1 _ (by decide) (by decide) (by decide)
  · obtain ⟨e, h1, h2⟩ := submissions_error_classification.2.2.2.2
      ⟨200, ⟨none, none⟩, fun _ => 503, fun _ => ⟨none, none⟩⟩
      "cpp" ⟨7, "t", 1, "cpp"⟩ [] (by decide)
    exact ⟨e, h1, h2.trans (by decide)⟩

end LeetcodeTracker
